import Mathlib

/-!
Shallow embedding of `src/callbacks.py` (Innixma/early-stopping).

Python dicts are modelled as insertion-ordered association lists, sets as
`Finset String`, machine numbers as `Int`/`Nat` (no overflow is possible in the
source paths modelled here), and raised exceptions as `Except Err`.
-/

namespace EarlyStopping

/-- Exceptions that the embedded code can raise.  Constructors record the
site/kind of the Python exception: `keyError k` is `KeyError: k` from a dict
subscript, `zeroDivision` the `ZeroDivisionError` from `num_axes / cols`,
`usageError` the `ValueError("Not enough lines to construct line plot!")`,
`exhausted` the `StopIteration` from `next()` on a spent generator,
`indexError` the `IndexError` from `list.pop()` on an empty list,
`noneError` a `TypeError`/`AttributeError` from using an uninitialized `None`
field, and `configError` the failure of `os.path.join(None, file_name)` when
no output path was configured. -/
inductive Err where
  | keyError (key : String)
  | zeroDivision
  | usageError
  | exhausted
  | indexError
  | noneError
  | configError
deriving DecidableEq, Repr

/-- Arguments passed by the iterative strategy to `before_iter`:
`(iter, metric, iter_wo_improvement, patience)` (the `strategy` argument is
never used by the aggregators and is omitted). -/
structure IterArgs where
  iter : Int
  metric : Int
  iter_wo_improvement : Int
  patience : Int
deriving DecidableEq, Repr

/-- The `results` accumulator: a Python dict from series name to the list of
appended scalars, modelled as an insertion-ordered association list. -/
abbrev ResultsDict := List (String × List Int)

/-- Python `key in d` on a dict. -/
def dictMem : ResultsDict → String → Bool
  | [], _ => false
  | (k, _) :: rest, key => if k = key then true else dictMem rest key

/-- Python `d[key]` on a dict, as an `Option` (first entry wins; our dicts
always have distinct keys, like Python dicts). -/
def dictLookup : ResultsDict → String → Option (List Int)
  | [], _ => none
  | (k, v) :: rest, key => if k = key then some v else dictLookup rest key

/-- Python `d[key] = []` executed only when `key not in d`: appends a fresh
empty series at the end of the dict, keeping insertion order. -/
def ensureKey (d : ResultsDict) (key : String) : ResultsDict :=
  if dictMem d key then d else d ++ [(key, [])]

/-- Python `d[key].append(x)`: appends to the series stored at `key`
(the source only calls this after guaranteeing the key is present). -/
def dictAppend : ResultsDict → String → Int → ResultsDict
  | [], _, _ => []
  | (k, v) :: rest, key, x =>
      if k = key then (k, v ++ [x]) :: rest else (k, v) :: dictAppend rest key x

/-- The series stored at `key`, defaulting to the empty series. -/
def lookupList (d : ResultsDict) (key : String) : List Int :=
  (dictLookup d key).getD []

/-- The two concrete aggregator classes that can be configured as
`strategy_callback` of the orchestration callback. -/
inductive AggKind where
  | patience
  | learningCurve
deriving DecidableEq, Repr

/-- Class attribute `name` of the aggregator class. -/
def AggKind.name : AggKind → String
  | .patience => "Patience Curves"
  | .learningCurve => "Learning Curves"

/-- Class attribute `file_name` of the aggregator class. -/
def AggKind.file_name : AggKind → String
  | .patience => "patience_curves"
  | .learningCurve => "learning_curves"

/-- `PatienceStrategyCallback.before_iter`: lazily create the three tracked
series, append `(iter, iter_wo_improvement, patience)`, return `False`. -/
def patienceStep (d : ResultsDict) (a : IterArgs) : ResultsDict × Bool :=
  let d1 := ensureKey d "iter"
  let d2 := ensureKey d1 "iter_wo_improvement"
  let d3 := ensureKey d2 "patience"
  let d4 := dictAppend d3 "iter" a.iter
  let d5 := dictAppend d4 "iter_wo_improvement" a.iter_wo_improvement
  let d6 := dictAppend d5 "patience" a.patience
  (d6, false)

/-- `LearningCurveStrategyCallback.before_iter`: lazily create the two tracked
series, append `(iter, error)`, return `False`. -/
def learningCurveStep (d : ResultsDict) (a : IterArgs) : ResultsDict × Bool :=
  let d1 := ensureKey d "iter"
  let d2 := ensureKey d1 "error"
  let d3 := dictAppend d2 "iter" a.iter
  let d4 := dictAppend d3 "error" a.metric
  (d4, false)

/-- Dispatch `before_iter` on the configured aggregator class. -/
def AggKind.step : AggKind → ResultsDict → IterArgs → ResultsDict × Bool
  | .patience, d, a => patienceStep d a
  | .learningCurve, d, a => learningCurveStep d a

/-- A sequence of `K` `before_iter` calls on one aggregator sharing one
accumulator dict. -/
def runIters (k : AggKind) : List IterArgs → ResultsDict → ResultsDict
  | [], d => d
  | a :: rest, d => runIters k rest (k.step d a).1

/-- The `filters` dict passed to `before_task`.  The source only subscripts
the keys `"models"`, `"metrics"`, `"eval_sets"`; `none` models a dict where
that key is absent (subscripting raises `KeyError`), `some l` a present list
value (Python truthiness of a list is non-emptiness). -/
structure Filters where
  models : Option (List String)
  metrics : Option (List String)
  eval_sets : Option (List String)
deriving DecidableEq, Repr

/-- Python `filters[key]`: `KeyError` when the key is absent. -/
def filterGet (v : Option (List String)) (key : String) : Except Err (List String) :=
  match v with
  | none => .error (.keyError key)
  | some l => .ok l

/-- `curve_data`: a dict from model name to `(eval_sets, metrics, _)` where the
first two components are set-like collections of names and the third is unused
by this code.  Insertion order of the dict is the list order. -/
abbrev CurveData := List (String × Finset String × Finset String × Unit)

/-- `strategies`: a dict from strategy name to `(_, configs)`; only
`len(configs)` is used, the configs themselves are opaque. -/
abbrev Strategies := List (String × Unit × List String)

/-- Python `len(np.intersect1d(s, l))`: the number of distinct values common
to both collections. -/
def intersectCard (s : Finset String) (l : List String) : Nat :=
  (s.filter (fun x => x ∈ l)).card

/-- The `total_curves` accumulation loop of `before_task`, one dict entry at a
time.  For each model: subscript `filters["models"]` and skip the model when
that list is truthy and does not contain it; otherwise subscript
`filters["metrics"]` and `filters["eval_sets"]` and add the product of the
effective metric and eval-set counts. -/
def totalCurvesGo (f : Filters) : CurveData → Nat → Except Err Nat
  | [], acc => .ok acc
  | (model, data) :: rest, acc =>
      match filterGet f.models "models" with
      | .error e => .error e
      | .ok fm =>
          if fm ≠ [] ∧ model ∉ fm then
            totalCurvesGo f rest acc
          else
            match filterGet f.metrics "metrics" with
            | .error e => .error e
            | .ok fmet =>
                let nmet := if fmet ≠ [] then intersectCard data.2.1 fmet
                            else data.2.1.card
                match filterGet f.eval_sets "eval_sets" with
                | .error e => .error e
                | .ok fes =>
                    let nes := if fes ≠ [] then intersectCard data.1 fes
                               else data.1.card
                    totalCurvesGo f rest (acc + nmet * nes)

/-- The `total_configs` loop of `before_task`: sum of `len(configs)` over all
strategies; the `filters` argument plays no part. -/
def totalConfigs : Strategies → Nat
  | [] => 0
  | (_, _, cfgs) :: rest => cfgs.length + totalConfigs rest

/-- Linear search for the least `c` with `n ≤ c * c`, starting at `c` with the
given fuel (used with fuel `n`, which always suffices). -/
def ceilSqrtGo (n : Nat) : Nat → Nat → Nat
  | c, 0 => c
  | c, fuel + 1 => if n ≤ c * c then c else ceilSqrtGo n (c + 1) fuel

/-- `int(np.ceil(np.sqrt(n)))` on a natural number: the least `c` with
`n ≤ c * c`. -/
def ceilSqrt (n : Nat) : Nat :=
  ceilSqrtGo n 0 n

/-- `int(np.ceil(n / c))` on naturals with `c > 0`: the least `r` with
`n ≤ r * c`. -/
def ceilDiv (n c : Nat) : Nat :=
  (n + c - 1) / c

/-- The numeric layout computed by `before_task`. -/
structure GridCalc where
  totalCurves : Nat
  totalConfigs : Nat
  numAxes : Nat
  cols : Nat
  rows : Nat
deriving DecidableEq, Repr

/-- The whole numeric part of `before_task`: `total_curves`, `total_configs`,
`num_axes = total_curves * total_configs`, `cols = ceil(sqrt(num_axes))`, and
`rows = ceil(num_axes / cols)` — the latter raises `ZeroDivisionError` when
`cols = 0` (which happens exactly when `num_axes = 0`). -/
def beforeTaskCalc (cd : CurveData) (strats : Strategies) (f : Filters) :
    Except Err GridCalc :=
  match totalCurvesGo f cd 0 with
  | .error e => .error e
  | .ok tc =>
      let cfg := totalConfigs strats
      let n := tc * cfg
      let c := ceilSqrt n
      if c = 0 then .error .zeroDivision
      else .ok ⟨tc, cfg, n, c, ceilDiv n c⟩

/-- A drawable panel.  `plt.subplots` creates fresh axes objects on a fresh
figure each time, so a panel is identified by the figure generation it was
created in together with its row-major index in `figure.axes`. -/
abbrev Panel := Nat × Nat

/-- The value of `ax.get_legend_handles_labels()`: the handles belong to the
axes object they were drawn on (`panel`), and the labels are the labels of the
lines drawn there, in drawing order. -/
structure Legend where
  panel : Panel
  labels : List String
deriving DecidableEq, Repr

/-- An element of a strategy's `callbacks` list: either an aggregator instance
attached by the orchestration callback, or any other callback already present. -/
inductive CB where
  | agg (kind : AggKind)
  | other (n : Nat)
deriving DecidableEq, Repr

/-- The mutable state of a `GraphSimulationCallback` instance:
`strategy_callback` (an aggregator class) and `path` are set in `__init__` and
never written again; `figure`, `axes`, `legend`, `results` start as `None`.
`figureGen` counts the figures created so far (object identity of matplotlib
figures/axes); `plotted` is the history of panels drawn on (ghost field used
to state which panel each `after_strategy` call obtained). -/
structure GCState where
  strategy_callback : AggKind
  path : Option String
  figureGen : Nat
  figure : Option Nat
  axes : Option (List Panel)
  legend : Option Legend
  results : Option ResultsDict
  plotted : List Panel
deriving DecidableEq, Repr

/-- `GraphSimulationCallback.__init__`. -/
def initState (k : AggKind) (path : Option String) : GCState :=
  ⟨k, path, 0, none, none, none, none, []⟩

/-- `GraphSimulationCallback.before_task`: run the layout computation, create
a fresh figure of `rows * cols` axes, and set `self.axes` to a one-shot
generator over `figure.axes` (row-major order).  `self.legend` and
`self.results` are not touched. -/
def before_task (s : GCState) (cd : CurveData) (strats : Strategies)
    (f : Filters) : Except Err GCState :=
  match beforeTaskCalc cd strats f with
  | .error e => .error e
  | .ok g =>
      let gen := s.figureGen + 1
      .ok { s with
            figureGen := gen
            figure := some gen
            axes := some ((List.range (g.rows * g.cols)).map (fun i => (gen, i))) }

/-- `GraphSimulationCallback.plot_lines(x, ax, **kwargs)`: raise `ValueError`
when fewer than two series are supplied; otherwise look up and delete the X
series and draw every remaining series against it.  Returns the X values and
the `(label, values)` lines drawn, in order. -/
def plot_lines (x : String) (kwargs : ResultsDict) :
    Except Err (List Int × ResultsDict) :=
  if kwargs.length < 2 then .error .usageError
  else
    match dictLookup kwargs x with
    | none => .error (.keyError x)
    | some xs => .ok (xs, kwargs.filter (fun p => p.1 ≠ x))

/-- `os.path.join(a, b)` (posix): `b` wins when absolute; otherwise a `"/"`
separator is inserted unless `a` is empty or already ends in `"/"`. -/
def joinPath (a b : String) : String :=
  if b.data.head? = some '/' then b
  else if a = "" ∨ a.data.getLast? = some '/' then a ++ b
  else a ++ "/" ++ b

/-- `GraphSimulationCallback.before_strategy`: reassign `self.results` to a
fresh empty dict, construct the configured aggregator over it, and attach it
to the strategy's `callbacks` list (append when truthy, else a new
single-element list).  Returns the new state and the new callbacks list. -/
def before_strategy (s : GCState) (cbs : List CB) : GCState × List CB :=
  let s1 := { s with results := some [] }
  let newCb := CB.agg s.strategy_callback
  (s1, if cbs ≠ [] then cbs ++ [newCb] else [newCb])

/-- One `before_iter` call arriving at the attached aggregator during the
strategy run: it mutates the dict shared with `self.results`. -/
def stepIter (s : GCState) (a : IterArgs) : GCState :=
  { s with results := s.results.map (fun d => (s.strategy_callback.step d a).1) }

/-- `GraphSimulationCallback.after_strategy`: `next(self.axes)` (raising
`StopIteration` when the generator is exhausted), `plot_lines("iter", ax,
**self.results)`, capture `ax.get_legend_handles_labels()` into `self.legend`
when it is still `None`, set the panel title, and `strategy.callbacks.pop()`.
The `model`/`metric`/`eval_set` arguments only feed the title. -/
def after_strategy (s : GCState) (model metric eval_set : String)
    (cbs : List CB) : Except Err (GCState × List CB) :=
  match s.axes with
  | none => .error .noneError
  | some [] => .error .exhausted
  | some (ax :: restAxes) =>
      match s.results with
      | none => .error .noneError
      | some res =>
          match plot_lines "iter" res with
          | .error e => .error e
          | .ok pl =>
              let newLegend :=
                match s.legend with
                | none => some (Legend.mk ax (pl.2.map (fun p => p.1)))
                | some l => some l
              match cbs with
              | [] => .error .indexError
              | _ :: _ =>
                  .ok ({ s with
                          axes := some restAxes
                          legend := newLegend
                          plotted := s.plotted ++ [ax] }, cbs.dropLast)

/-- `GraphSimulationCallback.after_task`: `self.figure.suptitle(...)` (fails
when `figure` is `None`), `self.figure.legend(*self.legend)` (fails when
`legend` is `None`), then `self.figure.savefig(os.path.join(self.path,
file_name))` — `os.path.join(None, ...)` raises when `path` was never
configured.  Returns the state and the destination path written to. -/
def after_task (s : GCState) : Except Err (GCState × String) :=
  match s.figure with
  | none => .error .noneError
  | some _ =>
      match s.legend with
      | none => .error .noneError
      | some _ =>
          match s.path with
          | none => .error .configError
          | some p => .ok (s, joinPath p s.strategy_callback.file_name)

/-- One full strategy run as driven by the task driver: `before_strategy`,
one iteration delivering `before_iter` to the attached aggregator, then
`after_strategy`. -/
def strategyCycle (s : GCState) (cbs : List CB) : Except Err (GCState × List CB) :=
  let sc := before_strategy s cbs
  let s2 := stepIter sc.1 ⟨0, 0, 0, 0⟩
  after_strategy s2 "model" "metric" "eval" sc.2

/-- `n` consecutive strategy runs. -/
def runCycles : Nat → GCState → List CB → Except Err (GCState × List CB)
  | 0, s, cbs => .ok (s, cbs)
  | n + 1, s, cbs =>
      match strategyCycle s cbs with
      | .error e => .error e
      | .ok r => runCycles n r.1 r.2

/-- The worked example of the specification:
`curve_data = {"m1": ({"train","val"}, {"mse","mae"}, _)}`. -/
def exCurveData : CurveData :=
  [("m1", ({"train", "val"}, {"mse", "mae"}, ()))]

/-- The worked example of the specification:
`strategies = {"s1": (_, [cfg1, cfg2])}`. -/
def exStrategies : Strategies :=
  [("s1", ((), ["cfg1", "cfg2"]))]

/-- The worked example of the specification:
`filters = {models: [], metrics: [], eval_sets: []}` (all keys present, all
falsy). -/
def exFilters : Filters :=
  ⟨some [], some [], some []⟩

/-- Specification-side restatement of the `total_curves` algorithm: the sum,
over the models not excluded by the models filter, of the product of the
effective metric count and the effective eval-set count. -/
def totalCurvesSpec (cd : CurveData) (ms fmet fes : List String) : Nat :=
  ((cd.filter (fun p => ¬(ms ≠ [] ∧ p.1 ∉ ms))).map
    (fun p => (if fmet ≠ [] then intersectCard p.2.2.1 fmet else p.2.2.1.card) *
              (if fes ≠ [] then intersectCard p.2.1 fes else p.2.1.card))).sum

/-- The accumulator dict after the single iteration of `strategyCycle`. -/
def postIterDict (k : AggKind) : ResultsDict :=
  (k.step [] ⟨0, 0, 0, 0⟩).1

/-- The legend labels captured from a panel drawn by `strategyCycle`. -/
def postLabels (k : AggKind) : List String :=
  ((postIterDict k).filter (fun p => p.1 ≠ "iter")).map Prod.fst

/-- The state right after `before_task` on the worked example. -/
def exTaskState : GCState :=
  ⟨.patience, some "out", 1, some 1,
    some ((List.range 9).map (fun i => (1, i))), none, none, []⟩

/-- A state mid-strategy-run used to witness `after_strategy` successes:
figure and axes exist, the accumulator holds two series. -/
def exMidState : GCState :=
  ⟨.patience, some "out", 1, some 1, some [(1, 0)], none,
    some [("iter", [1]), ("error", [2])], []⟩

/-- The state produced by `after_strategy` on `exMidState`: the panel was
consumed, the legend captured from it, the panel recorded as plotted. -/
def c3WitOut : GCState :=
  ⟨.patience, some "out", 1, some 1, some [], some ⟨(1, 0), ["error"]⟩,
    some [("iter", [1]), ("error", [2])], [(1, 0)]⟩

/-! Helper lemmas about the dict operations. -/

theorem dictMem_eq_isSome (d : ResultsDict) (k : String) :
    dictMem d k = (dictLookup d k).isSome := by
  induction d with
  | nil => rfl
  | cons hd tl ih =>
      obtain ⟨k0, v0⟩ := hd
      by_cases h : k0 = k <;> simp [dictMem, dictLookup, h, ih]

theorem dictLookup_append (d : ResultsDict) (k k2 : String) (v : List Int) :
    dictLookup (d ++ [(k, v)]) k2 =
      if k2 = k ∧ dictLookup d k2 = none then some v else dictLookup d k2 := by
  induction d with
  | nil =>
      by_cases h : k = k2 <;> simp [dictLookup, h] <;> simp [eq_comm, h]
  | cons hd tl ih =>
      obtain ⟨k0, v0⟩ := hd
      by_cases h : k0 = k2 <;> simp [dictLookup, h, ih]

theorem dictLookup_ensureKey (d : ResultsDict) (k k2 : String) :
    dictLookup (ensureKey d k) k2 =
      if k2 = k then some (lookupList d k) else dictLookup d k2 := by
  unfold ensureKey
  rw [dictMem_eq_isSome]
  by_cases hk : (dictLookup d k).isSome
  · simp only [hk, if_true]
    by_cases h : k2 = k
    · subst h
      obtain ⟨l, hl⟩ := Option.isSome_iff_exists.mp hk
      simp [lookupList, hl]
    · simp [h]
  · simp only [hk, Bool.false_eq_true, if_false, dictLookup_append]
    have hnone : dictLookup d k = none := Option.not_isSome_iff_eq_none.mp hk
    by_cases h : k2 = k
    · subst h
      simp [hnone, lookupList]
    · simp [h]

theorem dictLookup_dictAppend (d : ResultsDict) (k k2 : String) (x : Int) :
    dictLookup (dictAppend d k x) k2 =
      if k2 = k then (dictLookup d k2).map (fun l => l ++ [x])
      else dictLookup d k2 := by
  induction d with
  | nil => by_cases h : k2 = k <;> simp [dictAppend, dictLookup, h]
  | cons hd tl ih =>
      obtain ⟨k0, v0⟩ := hd
      by_cases h0 : k0 = k
      · subst h0
        by_cases h : k0 = k2
        · subst h
          simp [dictAppend, dictLookup]
        · have h2 : ¬(k2 = k0) := fun hh => h hh.symm
          simp [dictAppend, dictLookup, h, h2]
      · by_cases h : k0 = k2
        · subst h
          simp [dictAppend, dictLookup, h0]
        · simp [dictAppend, dictLookup, h0, h, ih]

theorem lookupList_some {d : ResultsDict} {k : String} {l : List Int}
    (h : dictLookup d k = some l) : lookupList d k = l := by
  simp [lookupList, h]

theorem patienceStep_lookup_iter (d : ResultsDict) (a : IterArgs) :
    dictLookup (patienceStep d a).1 "iter" = some (lookupList d "iter" ++ [a.iter]) := by
  simp [patienceStep, dictLookup_dictAppend, dictLookup_ensureKey, lookupList]

theorem patienceStep_lookup_iwi (d : ResultsDict) (a : IterArgs) :
    dictLookup (patienceStep d a).1 "iter_wo_improvement" =
      some (lookupList d "iter_wo_improvement" ++ [a.iter_wo_improvement]) := by
  simp [patienceStep, dictLookup_dictAppend, dictLookup_ensureKey, lookupList]

theorem patienceStep_lookup_patience (d : ResultsDict) (a : IterArgs) :
    dictLookup (patienceStep d a).1 "patience" =
      some (lookupList d "patience" ++ [a.patience]) := by
  simp [patienceStep, dictLookup_dictAppend, dictLookup_ensureKey, lookupList]

theorem patienceStep_lookup_other (d : ResultsDict) (a : IterArgs) (k : String)
    (h1 : k ≠ "iter") (h2 : k ≠ "iter_wo_improvement") (h3 : k ≠ "patience") :
    dictLookup (patienceStep d a).1 k = dictLookup d k := by
  simp [patienceStep, dictLookup_dictAppend, dictLookup_ensureKey, h1, h2, h3]

theorem learningCurveStep_lookup_iter (d : ResultsDict) (a : IterArgs) :
    dictLookup (learningCurveStep d a).1 "iter" =
      some (lookupList d "iter" ++ [a.iter]) := by
  simp [learningCurveStep, dictLookup_dictAppend, dictLookup_ensureKey, lookupList]

theorem learningCurveStep_lookup_error (d : ResultsDict) (a : IterArgs) :
    dictLookup (learningCurveStep d a).1 "error" =
      some (lookupList d "error" ++ [a.metric]) := by
  simp [learningCurveStep, dictLookup_dictAppend, dictLookup_ensureKey, lookupList]

theorem learningCurveStep_lookup_other (d : ResultsDict) (a : IterArgs) (k : String)
    (h1 : k ≠ "iter") (h2 : k ≠ "error") :
    dictLookup (learningCurveStep d a).1 k = dictLookup d k := by
  simp [learningCurveStep, dictLookup_dictAppend, dictLookup_ensureKey, h1, h2]

theorem runIters_patience_iter (as : List IterArgs) (d : ResultsDict) :
    dictLookup (runIters .patience as d) "iter" =
      if as.isEmpty then dictLookup d "iter"
      else some (lookupList d "iter" ++ as.map (fun x => x.iter)) := by
  induction as generalizing d with
  | nil => simp [runIters]
  | cons a rest ih =>
      simp only [runIters, AggKind.step, List.isEmpty_cons, Bool.false_eq_true,
        if_false, List.map_cons]
      rw [ih]
      rcases rest with _ | ⟨b, rest2⟩
      · simp [patienceStep_lookup_iter]
      · simp [lookupList_some (patienceStep_lookup_iter d a)]

theorem runIters_patience_iwi (as : List IterArgs) (d : ResultsDict) :
    dictLookup (runIters .patience as d) "iter_wo_improvement" =
      if as.isEmpty then dictLookup d "iter_wo_improvement"
      else some (lookupList d "iter_wo_improvement" ++
        as.map (fun x => x.iter_wo_improvement)) := by
  induction as generalizing d with
  | nil => simp [runIters]
  | cons a rest ih =>
      simp only [runIters, AggKind.step, List.isEmpty_cons, Bool.false_eq_true,
        if_false, List.map_cons]
      rw [ih]
      rcases rest with _ | ⟨b, rest2⟩
      · simp [patienceStep_lookup_iwi]
      · simp [lookupList_some (patienceStep_lookup_iwi d a)]

theorem runIters_patience_pat (as : List IterArgs) (d : ResultsDict) :
    dictLookup (runIters .patience as d) "patience" =
      if as.isEmpty then dictLookup d "patience"
      else some (lookupList d "patience" ++ as.map (fun x => x.patience)) := by
  induction as generalizing d with
  | nil => simp [runIters]
  | cons a rest ih =>
      simp only [runIters, AggKind.step, List.isEmpty_cons, Bool.false_eq_true,
        if_false, List.map_cons]
      rw [ih]
      rcases rest with _ | ⟨b, rest2⟩
      · simp [patienceStep_lookup_patience]
      · simp [lookupList_some (patienceStep_lookup_patience d a)]

theorem runIters_patience_other (as : List IterArgs) (d : ResultsDict) (k : String)
    (h1 : k ≠ "iter") (h2 : k ≠ "iter_wo_improvement") (h3 : k ≠ "patience") :
    dictLookup (runIters .patience as d) k = dictLookup d k := by
  induction as generalizing d with
  | nil => simp [runIters]
  | cons a rest ih =>
      simp only [runIters, AggKind.step]
      rw [ih, patienceStep_lookup_other d a k h1 h2 h3]

theorem runIters_learning_iter (as : List IterArgs) (d : ResultsDict) :
    dictLookup (runIters .learningCurve as d) "iter" =
      if as.isEmpty then dictLookup d "iter"
      else some (lookupList d "iter" ++ as.map (fun x => x.iter)) := by
  induction as generalizing d with
  | nil => simp [runIters]
  | cons a rest ih =>
      simp only [runIters, AggKind.step, List.isEmpty_cons, Bool.false_eq_true,
        if_false, List.map_cons]
      rw [ih]
      rcases rest with _ | ⟨b, rest2⟩
      · simp [learningCurveStep_lookup_iter]
      · simp [lookupList_some (learningCurveStep_lookup_iter d a)]

theorem runIters_learning_error (as : List IterArgs) (d : ResultsDict) :
    dictLookup (runIters .learningCurve as d) "error" =
      if as.isEmpty then dictLookup d "error"
      else some (lookupList d "error" ++ as.map (fun x => x.metric)) := by
  induction as generalizing d with
  | nil => simp [runIters]
  | cons a rest ih =>
      simp only [runIters, AggKind.step, List.isEmpty_cons, Bool.false_eq_true,
        if_false, List.map_cons]
      rw [ih]
      rcases rest with _ | ⟨b, rest2⟩
      · simp [learningCurveStep_lookup_error]
      · simp [lookupList_some (learningCurveStep_lookup_error d a)]

theorem runIters_learning_other (as : List IterArgs) (d : ResultsDict) (k : String)
    (h1 : k ≠ "iter") (h2 : k ≠ "error") :
    dictLookup (runIters .learningCurve as d) k = dictLookup d k := by
  induction as generalizing d with
  | nil => simp [runIters]
  | cons a rest ih =>
      simp only [runIters, AggKind.step]
      rw [ih, learningCurveStep_lookup_other d a k h1 h2]

/-- C4: for every sequence of K `before_iter` calls on a metric aggregator
over an initially-empty accumulator, each tracked series ("iter",
"iter_wo_improvement", "patience" for the patience aggregator; "iter", "error"
for the learning-curve aggregator) holds exactly the K passed values in call
order, keys for untracked series are absent from the accumulator, and every
call returns false. -/
theorem C4_aggregator_series (as : List IterArgs) :
    (dictLookup (runIters .patience as []) "iter"
        = if as.isEmpty then none else some (as.map (fun x => x.iter))) ∧
    (dictLookup (runIters .patience as []) "iter_wo_improvement"
        = if as.isEmpty then none
          else some (as.map (fun x => x.iter_wo_improvement))) ∧
    (dictLookup (runIters .patience as []) "patience"
        = if as.isEmpty then none else some (as.map (fun x => x.patience))) ∧
    (∀ k, k ≠ "iter" → k ≠ "iter_wo_improvement" → k ≠ "patience" →
        dictLookup (runIters .patience as []) k = none) ∧
    (dictLookup (runIters .learningCurve as []) "iter"
        = if as.isEmpty then none else some (as.map (fun x => x.iter))) ∧
    (dictLookup (runIters .learningCurve as []) "error"
        = if as.isEmpty then none else some (as.map (fun x => x.metric))) ∧
    (∀ k, k ≠ "iter" → k ≠ "error" →
        dictLookup (runIters .learningCurve as []) k = none) ∧
    (∀ d a, (AggKind.patience.step d a).2 = false ∧
        (AggKind.learningCurve.step d a).2 = false) ∧
    (∀ g : IterArgs → Int, (as.map g).length = as.length) := by
  refine ⟨?_, ?_, ?_, ?_, ?_, ?_, ?_, ?_, ?_⟩
  · rw [runIters_patience_iter]
    rcases as with _ | _ <;> simp [dictLookup, lookupList]
  · rw [runIters_patience_iwi]
    rcases as with _ | _ <;> simp [dictLookup, lookupList]
  · rw [runIters_patience_pat]
    rcases as with _ | _ <;> simp [dictLookup, lookupList]
  · intro k h1 h2 h3
    rw [runIters_patience_other as [] k h1 h2 h3]
    rfl
  · rw [runIters_learning_iter]
    rcases as with _ | _ <;> simp [dictLookup, lookupList]
  · rw [runIters_learning_error]
    rcases as with _ | _ <;> simp [dictLookup, lookupList]
  · intro k h1 h2
    rw [runIters_learning_other as [] k h1 h2]
    rfl
  · intro d a
    exact ⟨rfl, rfl⟩
  · intro g
    exact as.length_map g

/-- Witness for C4: two concrete `before_iter` calls on the patience
aggregator give two-entry series in call order, and the untracked key
"error" stays absent. -/
theorem C4_witness :
    dictLookup (runIters .patience [⟨1, 5, 0, 3⟩, ⟨2, 4, 1, 3⟩] []) "iter"
        = some [1, 2] ∧
    dictLookup (runIters .patience [⟨1, 5, 0, 3⟩, ⟨2, 4, 1, 3⟩] []) "error"
        = none := by
  have h := C4_aggregator_series [⟨1, 5, 0, 3⟩, ⟨2, 4, 1, 3⟩]
  refine ⟨?_, h.2.2.2.1 "error" (by decide) (by decide) (by decide)⟩
  have h1 := h.1
  simpa using h1

theorem dictLookup_of_mem_keys {kwargs : ResultsDict} {x : String}
    (h : x ∈ kwargs.map Prod.fst) : ∃ xs, dictLookup kwargs x = some xs := by
  induction kwargs with
  | nil => simp at h
  | cons hd tl ih =>
      obtain ⟨k0, v0⟩ := hd
      by_cases hk : k0 = x
      · exact ⟨v0, by simp [dictLookup, hk]⟩
      · simp only [List.map_cons, List.mem_cons] at h
        rcases h with h | h
        · exact absurd h.symm hk
        · obtain ⟨xs, hxs⟩ := ih h
          exact ⟨xs, by simp [dictLookup, hk, hxs]⟩

theorem filter_ne_of_not_mem {kwargs : ResultsDict} {x : String}
    (h : x ∉ kwargs.map Prod.fst) :
    kwargs.filter (fun p => p.1 ≠ x) = kwargs := by
  induction kwargs with
  | nil => rfl
  | cons hd tl ih =>
      simp only [List.map_cons, List.mem_cons, not_or] at h
      have hne : hd.1 ≠ x := fun hh => h.1 hh.symm
      rw [List.filter_cons, if_pos (by simp [hne]), ih h.2]

theorem filter_ne_length {kwargs : ResultsDict} {x : String}
    (hnd : (kwargs.map Prod.fst).Nodup) (hmem : x ∈ kwargs.map Prod.fst) :
    (kwargs.filter (fun p => p.1 ≠ x)).length = kwargs.length - 1 := by
  induction kwargs with
  | nil => simp at hmem
  | cons hd tl ih =>
      simp only [List.map_cons, List.nodup_cons] at hnd
      rw [List.filter_cons]
      by_cases hk : hd.1 = x
      · subst hk
        rw [if_neg (by simp), filter_ne_of_not_mem hnd.1]
        simp
      · rw [if_pos (by simp [hk])]
        simp only [List.map_cons, List.mem_cons] at hmem
        rcases hmem with hmem | hmem
        · exact absurd hmem.symm hk
        · have hlen := ih hnd.2 hmem
          have hpos : 0 < tl.length :=
            List.length_pos.mpr (by rintro rfl; simp at hmem)
          simp only [List.length_cons, hlen]
          omega

/-- C5: `plot_lines` with fewer than 2 named series fails with the usage
error and draws nothing; with N ≥ 2 series including the X series it succeeds
and draws exactly the N − 1 non-X series, each against the X series values,
labelled by its own key. -/
theorem C5_plot_lines (x : String) (kwargs : ResultsDict) :
    (kwargs.length < 2 → plot_lines x kwargs = .error .usageError) ∧
    (2 ≤ kwargs.length → (kwargs.map Prod.fst).Nodup →
      x ∈ kwargs.map Prod.fst →
      ∃ xs, dictLookup kwargs x = some xs ∧
        plot_lines x kwargs = .ok (xs, kwargs.filter (fun p => p.1 ≠ x)) ∧
        (kwargs.filter (fun p => p.1 ≠ x)).length = kwargs.length - 1) := by
  constructor
  · intro h
    simp [plot_lines, h]
  · intro hlen hnd hmem
    obtain ⟨xs, hxs⟩ := dictLookup_of_mem_keys hmem
    refine ⟨xs, hxs, ?_, filter_ne_length hnd hmem⟩
    simp [plot_lines, Nat.not_lt.mpr hlen, hxs]

/-- Witness for C5: with the single series "iter" the call fails with the
usage error; with the two series "iter" and "error" it succeeds and draws
exactly one line. -/
theorem C5_witness :
    plot_lines "iter" [("iter", [1])] = .error .usageError ∧
    ∃ xs, dictLookup [("iter", [1]), ("error", [2])] "iter" = some xs ∧
      plot_lines "iter" [("iter", [1]), ("error", [2])] =
        .ok (xs, [("iter", [1]), ("error", [2])].filter (fun p => p.1 ≠ "iter")) ∧
      ([("iter", [1]), ("error", [2])].filter
          (fun p : String × List Int => p.1 ≠ "iter")).length = 1 := by
  constructor
  · exact (C5_plot_lines "iter" [("iter", [1])]).1 (by decide)
  · exact (C5_plot_lines "iter" [("iter", [1]), ("error", [2])]).2
      (by decide) (by decide) (by decide)

/-! Inversion lemmas for the orchestration operations. -/

theorem after_strategy_ok {s : GCState} {m e v : String} {cbs : List CB}
    {s2 : GCState} {cbs2 : List CB}
    (h : after_strategy s m e v cbs = .ok (s2, cbs2)) :
    ∃ p rest res xs,
      s.axes = some (p :: rest) ∧ s.results = some res ∧
      plot_lines "iter" res = .ok xs ∧ cbs ≠ [] ∧
      cbs2 = cbs.dropLast ∧
      s2 = { s with
              axes := some rest
              legend := some (s.legend.getD ⟨p, xs.2.map Prod.fst⟩)
              plotted := s.plotted ++ [p] } := by
  obtain ⟨sc, pa, fgen, fig, ax, lg, res, plt⟩ := s
  unfold after_strategy at h
  rcases ax with _ | axl
  · exact absurd h (by simp)
  rcases axl with _ | ⟨p, rest⟩
  · exact absurd h (by simp)
  rcases res with _ | res
  · exact absurd h (by simp)
  dsimp only at h
  rcases hpl : plot_lines "iter" res with er | xs
  · rw [hpl] at h
    exact absurd h (by simp)
  rw [hpl] at h
  rcases cbs with _ | ⟨c, cs⟩
  · exact absurd h (by simp)
  rcases lg with _ | l
  · dsimp only at h
    simp only [Except.ok.injEq, Prod.mk.injEq] at h
    exact ⟨p, rest, res, xs, rfl, rfl, hpl, by simp, h.2.symm, by rw [← h.1]; rfl⟩
  · dsimp only at h
    simp only [Except.ok.injEq, Prod.mk.injEq] at h
    exact ⟨p, rest, res, xs, rfl, rfl, hpl, by simp, h.2.symm, by rw [← h.1]; rfl⟩

/-- C6: a `before_strategy`/`after_strategy` pair with no interleaving
mutation of the observer list leaves the strategy's callbacks list with the
same length and the same elements: `before_strategy` appends exactly one
freshly constructed aggregator (also when the list was empty/falsy), and a
successful `after_strategy` removes exactly the last element. -/
theorem C6_attach_detach (s : GCState) (cbs : List CB) (m e v : String) :
    ((before_strategy s cbs).2 = cbs ++ [CB.agg s.strategy_callback]) ∧
    ((before_strategy s cbs).1.results = some []) ∧
    (∀ s2 s3 cbs3,
        after_strategy s2 m e v (before_strategy s cbs).2 = .ok (s3, cbs3) →
        cbs3 = cbs) := by
  have hatt : (before_strategy s cbs).2 = cbs ++ [CB.agg s.strategy_callback] := by
    unfold before_strategy
    rcases cbs with _ | ⟨c, cs⟩ <;> simp
  refine ⟨hatt, rfl, ?_⟩
  intro s2 s3 cbs3 h
  obtain ⟨_, _, _, _, _, _, _, _, hcbs, _⟩ := after_strategy_ok h
  rw [hcbs, hatt, List.dropLast_concat]

/-- Witness for C6: a concrete attach/detach pair on an observer list holding
one pre-existing callback nets to zero. -/
theorem C6_witness :
    ∃ s3 cbs3,
      after_strategy exMidState "m" "e" "v"
          (before_strategy (initState .patience none) [CB.other 7]).2
        = .ok (s3, cbs3) ∧ cbs3 = [CB.other 7] := by
  refine ⟨_, _, rfl, ?_⟩
  exact (C6_attach_detach (initState .patience none) [CB.other 7] "m" "e" "v").2.2
    exMidState _ _ rfl

/-! Ceiling characterizations of the layout arithmetic. -/

theorem ceilSqrtGo_spec (n : Nat) : ∀ fuel c, n ≤ (c + fuel) * (c + fuel) →
    n ≤ ceilSqrtGo n c fuel * ceilSqrtGo n c fuel := by
  intro fuel
  induction fuel with
  | zero => intro c h; simpa using h
  | succ fuel ih =>
      intro c h
      unfold ceilSqrtGo
      by_cases hc : n ≤ c * c
      · rw [if_pos hc]; exact hc
      · rw [if_neg hc]
        have h2 : n ≤ (c + 1 + fuel) * (c + 1 + fuel) := by
          have he : c + 1 + fuel = c + (fuel + 1) := by omega
          rw [he]; exact h
        exact ih (c + 1) h2

theorem ceilSqrtGo_le (n : Nat) : ∀ fuel c r, c ≤ r → n ≤ r * r →
    ceilSqrtGo n c fuel ≤ r := by
  intro fuel
  induction fuel with
  | zero => intro c r hcr _; exact hcr
  | succ fuel ih =>
      intro c r hcr hr
      unfold ceilSqrtGo
      by_cases hc : n ≤ c * c
      · rw [if_pos hc]; exact hcr
      · rw [if_neg hc]
        refine ih (c + 1) r ?_ hr
        rcases Nat.lt_or_ge c r with h | h
        · omega
        · have : r = c := by omega
          subst this
          exact absurd hr hc

theorem le_ceilSqrt_sq (n : Nat) : n ≤ ceilSqrt n * ceilSqrt n := by
  unfold ceilSqrt
  refine ceilSqrtGo_spec n n 0 ?_
  rcases Nat.eq_zero_or_pos n with h | h
  · simp [h]
  · simpa using Nat.le_mul_of_pos_left n h

theorem ceilSqrt_le (n c : Nat) (h : n ≤ c * c) : ceilSqrt n ≤ c :=
  ceilSqrtGo_le n n 0 c (Nat.zero_le c) h

theorem ceilSqrt_pos (n : Nat) (h : n ≠ 0) : 0 < ceilSqrt n := by
  rcases Nat.eq_zero_or_pos (ceilSqrt n) with h0 | h0
  · have := le_ceilSqrt_sq n
    rw [h0] at this
    omega
  · exact h0

theorem ceilSqrt_eq_zero_iff (n : Nat) : ceilSqrt n = 0 ↔ n = 0 := by
  constructor
  · intro h
    by_contra hn
    exact absurd h (Nat.pos_iff_ne_zero.mp (ceilSqrt_pos n hn))
  · intro h
    subst h
    rfl

theorem le_ceilDiv_mul (n c : Nat) (hc : 0 < c) : n ≤ ceilDiv n c * c := by
  unfold ceilDiv
  have hdm := Nat.div_add_mod (n + c - 1) c
  have hlt : (n + c - 1) % c < c := Nat.mod_lt _ hc
  set q := (n + c - 1) / c with hq
  set r := (n + c - 1) % c with hr
  have hqc : q * c = c * q := Nat.mul_comm q c
  rw [hqc]
  omega

theorem ceilDiv_le (n c r : Nat) (hc : 0 < c) (h : n ≤ r * c) : ceilDiv n c ≤ r := by
  unfold ceilDiv
  have h2 : n + c - 1 < (r + 1) * c := by
    have hrc : (r + 1) * c = r * c + c := by ring
    omega
  have h3 : (n + c - 1) / c < r + 1 := (Nat.div_lt_iff_lt_mul hc).mpr h2
  omega

/-- Inversion of the numeric part of `before_task`. -/
theorem beforeTaskCalc_ok {cd : CurveData} {st : Strategies} {f : Filters}
    {g : GridCalc} (h : beforeTaskCalc cd st f = .ok g) :
    totalCurvesGo f cd 0 = .ok g.totalCurves ∧
    g.totalConfigs = totalConfigs st ∧
    g.numAxes = g.totalCurves * g.totalConfigs ∧
    g.cols = ceilSqrt g.numAxes ∧
    g.rows = ceilDiv g.numAxes g.cols ∧
    g.numAxes ≠ 0 := by
  unfold beforeTaskCalc at h
  rcases htc : totalCurvesGo f cd 0 with er | tc
  · rw [htc] at h; exact absurd h (by simp)
  rw [htc] at h
  dsimp only at h
  by_cases hz : ceilSqrt (tc * totalConfigs st) = 0
  · rw [if_pos hz] at h
    exact absurd h (by simp)
  · rw [if_neg hz] at h
    injection h with h2
    subst h2
    refine ⟨rfl, rfl, rfl, rfl, rfl, ?_⟩
    dsimp only
    intro h0
    exact hz (by rw [h0]; rfl)

/-- C7: `total_configs` is the sum of the configuration counts over all
strategies and is independent of the filters: two `before_task` computations
with the same strategies mapping but arbitrary (even different) curve data and
filters produce identical `total_configs`, and `num_axes` is always
`total_curves * total_configs`. -/
theorem C7_total_configs_filter_independent (cd1 cd2 : CurveData)
    (st : Strategies) (f1 f2 : Filters) (g1 g2 : GridCalc)
    (h1 : beforeTaskCalc cd1 st f1 = .ok g1)
    (h2 : beforeTaskCalc cd2 st f2 = .ok g2) :
    g1.totalConfigs = totalConfigs st ∧
    g2.totalConfigs = totalConfigs st ∧
    g1.totalConfigs = g2.totalConfigs ∧
    g1.numAxes = g1.totalCurves * g1.totalConfigs ∧
    g2.numAxes = g2.totalCurves * g2.totalConfigs := by
  obtain ⟨-, hc1, hn1, -, -, -⟩ := beforeTaskCalc_ok h1
  obtain ⟨-, hc2, hn2, -, -, -⟩ := beforeTaskCalc_ok h2
  exact ⟨hc1, hc2, by rw [hc1, hc2], hn1, hn2⟩

/-- Witness for C7: the example strategies mapping yields `total_configs = 2`
under two different filters. -/
theorem C7_witness :
    (GridCalc.mk 4 2 8 3 3).totalConfigs = totalConfigs exStrategies ∧
    (GridCalc.mk 2 2 4 2 2).totalConfigs = totalConfigs exStrategies := by
  have h := C7_total_configs_filter_independent exCurveData exCurveData
    exStrategies exFilters ⟨some [], some ["mse"], some []⟩
    ⟨4, 2, 8, 3, 3⟩ ⟨2, 2, 4, 2, 2⟩ rfl rfl
  exact ⟨h.1, h.2.1⟩

/-- C8: when the configured output path is `None` at `after_task` time (and
the figure and legend exist, so execution reaches the save), `after_task`
fails with the missing-path configuration error instead of silently dropping
the figure; when the path is set, it persists the figure to the join of the
path and the aggregator's configured file name. -/
theorem C8_after_task_path (s : GCState) (fg : Nat) (lg : Legend)
    (hf : s.figure = some fg) (hl : s.legend = some lg) :
    (s.path = none → after_task s = .error .configError) ∧
    (∀ p, s.path = some p →
        after_task s = .ok (s, joinPath p s.strategy_callback.file_name)) := by
  constructor
  · intro hp
    unfold after_task
    rw [hf, hl, hp]
  · intro p hp
    unfold after_task
    rw [hf, hl, hp]

/-- Witness for C8: with no path configured the error is raised; with path
"out" the patience aggregator's figure is saved to "out/patience_curves". -/
theorem C8_witness :
    after_task ⟨.patience, none, 1, some 1, some [], some ⟨(1, 0), []⟩,
        none, []⟩ = .error .configError ∧
    after_task ⟨.patience, some "out", 1, some 1, some [], some ⟨(1, 0), []⟩,
        none, []⟩ =
      .ok (⟨.patience, some "out", 1, some 1, some [], some ⟨(1, 0), []⟩,
        none, []⟩, "out/patience_curves") := by
  constructor
  · exact (C8_after_task_path _ 1 ⟨(1, 0), []⟩ rfl rfl).1 rfl
  · have h := (C8_after_task_path
      ⟨.patience, some "out", 1, some 1, some [], some ⟨(1, 0), []⟩, none, []⟩
      1 ⟨(1, 0), []⟩ rfl rfl).2 "out" rfl
    have hj : joinPath "out" AggKind.patience.file_name = "out/patience_curves" := by
      rfl
    rw [hj] at h
    exact h

/-- C10: whenever the layout computation reaches `num_axes = 0` (empty curve
data, all models excluded, or zero configurations), `before_task` fails with
the division-by-zero error from `rows = ceil(num_axes / cols)` (where
`cols = 0`), so a task with no panels can never be started. -/
theorem C10_zero_axes_division (s : GCState) (cd : CurveData) (st : Strategies)
    (f : Filters) (tc : Nat) (htc : totalCurvesGo f cd 0 = .ok tc)
    (hz : tc * totalConfigs st = 0) :
    before_task s cd st f = .error .zeroDivision := by
  unfold before_task beforeTaskCalc
  rw [htc]
  dsimp only
  rw [hz]
  rfl

/-- Witness for C10: empty curve data (so `total_curves = 0`) makes
`before_task` raise the division error. -/
theorem C10_witness :
    before_task (initState .patience (some "out")) [] exStrategies exFilters
      = .error .zeroDivision :=
  C10_zero_axes_division (initState .patience (some "out")) [] exStrategies
    exFilters 0 rfl rfl

/-- The accumulation loop equals the specification formula when all three
filter keys are present. -/
theorem totalCurvesGo_spec (cd : CurveData) (ms fmet fes : List String) (acc : Nat) :
    totalCurvesGo ⟨some ms, some fmet, some fes⟩ cd acc =
      .ok (acc + totalCurvesSpec cd ms fmet fes) := by
  induction cd generalizing acc with
  | nil => simp [totalCurvesGo, totalCurvesSpec]
  | cons hd tl ih =>
      obtain ⟨model, data⟩ := hd
      by_cases hskip : ms ≠ [] ∧ model ∉ ms
      · have hfilter : totalCurvesSpec ((model, data) :: tl) ms fmet fes =
            totalCurvesSpec tl ms fmet fes := by
          unfold totalCurvesSpec
          rw [List.filter_cons, if_neg (by simpa using hskip)]
        rw [hfilter]
        unfold totalCurvesGo
        dsimp only [filterGet]
        rw [if_pos hskip, ih]
      · have hfilter : totalCurvesSpec ((model, data) :: tl) ms fmet fes =
            ((if fmet ≠ [] then intersectCard data.2.1 fmet else data.2.1.card) *
             (if fes ≠ [] then intersectCard data.1 fes else data.1.card)) +
            totalCurvesSpec tl ms fmet fes := by
          unfold totalCurvesSpec
          rw [List.filter_cons,
            if_pos (show (decide ¬(ms ≠ [] ∧ (model, data).1 ∉ ms)) = true by
              simp only [decide_eq_true_eq]
              simpa [or_iff_not_imp_left] using hskip)]
          simp [List.map_cons, List.sum_cons]
        rw [hfilter]
        unfold totalCurvesGo
        dsimp only [filterGet]
        rw [if_neg hskip, ih]
        rw [Nat.add_assoc]

/-- C2: `before_task` computes `total_curves` as the sum over the non-excluded
models of the product of effective metric count and effective eval-set count
(all metrics/eval sets when the corresponding filter is falsy),
`num_axes = total_curves * total_configs`, `cols` is the ceiling of the square
root of `num_axes` (the least `c` with `num_axes ≤ c * c`), `rows` the ceiling
of `num_axes / cols` (the least `r` with `num_axes ≤ r * cols`); on the worked
example this gives `total_curves = 4`, `total_configs = 2`, `num_axes = 8`,
`cols = 3`, `rows = 3`. -/
theorem C2_grid_layout (cd : CurveData) (st : Strategies)
    (ms fmet fes : List String) :
    (totalCurvesGo ⟨some ms, some fmet, some fes⟩ cd 0 =
        .ok (totalCurvesSpec cd ms fmet fes)) ∧
    (∀ g, beforeTaskCalc cd st ⟨some ms, some fmet, some fes⟩ = .ok g →
        g.totalCurves = totalCurvesSpec cd ms fmet fes ∧
        g.totalConfigs = totalConfigs st ∧
        g.numAxes = g.totalCurves * g.totalConfigs ∧
        g.numAxes ≤ g.cols * g.cols ∧
        (∀ c, g.numAxes ≤ c * c → g.cols ≤ c) ∧
        g.numAxes ≤ g.rows * g.cols ∧
        (∀ r, g.numAxes ≤ r * g.cols → g.rows ≤ r)) ∧
    beforeTaskCalc exCurveData exStrategies exFilters = .ok ⟨4, 2, 8, 3, 3⟩ := by
  refine ⟨by simpa using totalCurvesGo_spec cd ms fmet fes 0, ?_, rfl⟩
  intro g hg
  obtain ⟨htc, hcfg, hax, hcols, hrows, hnz⟩ := beforeTaskCalc_ok hg
  have hcpos : 0 < g.cols := by
    rw [hcols]
    exact ceilSqrt_pos _ hnz
  refine ⟨?_, hcfg, hax, ?_, ?_, ?_, ?_⟩
  · rw [totalCurvesGo_spec cd ms fmet fes 0] at htc
    simpa using htc.symm
  · rw [hcols]; exact le_ceilSqrt_sq _
  · intro c hc
    rw [hcols]; exact ceilSqrt_le _ c hc
  · rw [hrows]; exact le_ceilDiv_mul _ _ hcpos
  · intro r hr
    rw [hrows]; exact ceilDiv_le _ _ r hcpos hr

/-- Witness for C2: instantiating the layout part at the worked example. -/
theorem C2_witness :
    totalCurvesSpec exCurveData [] [] [] = 4 ∧
    totalConfigs exStrategies = 2 ∧ (8 : Nat) = 4 * 2 ∧
    (8 : Nat) ≤ 3 * 3 ∧ (8 : Nat) ≤ 3 * 3 := by
  have h := (C2_grid_layout exCurveData exStrategies [] [] []).2.1
    ⟨4, 2, 8, 3, 3⟩ rfl
  exact ⟨h.1.symm, h.2.1.symm, h.2.2.1, h.2.2.2.1, h.2.2.2.2.2.1⟩

/-- A `KeyError` in the `total_curves` loop propagates out of `before_task`
(no grid is allocated). -/
theorem before_task_error (s : GCState) {cd : CurveData} {st : Strategies}
    {f : Filters} {e : Err} (h : totalCurvesGo f cd 0 = .error e) :
    before_task s cd st f = .error e := by
  unfold before_task beforeTaskCalc
  rw [h]

theorem totalCurvesGo_models_absent (cd : CurveData) (f : Filters) (acc : Nat)
    (hne : cd ≠ []) (hm : f.models = none) :
    totalCurvesGo f cd acc = .error (.keyError "models") := by
  rcases cd with _ | ⟨⟨model, data⟩, rest⟩
  · exact absurd rfl hne
  · unfold totalCurvesGo
    rw [hm]
    rfl

theorem totalCurvesGo_metrics_absent (cd : CurveData) (f : Filters) (fm : List String)
    (hm : f.models = some fm) (hmet : f.metrics = none) :
    ∀ acc, (∃ p ∈ cd, fm = [] ∨ p.1 ∈ fm) →
    totalCurvesGo f cd acc = .error (.keyError "metrics") := by
  induction cd with
  | nil => intro acc hpass; simp at hpass
  | cons hd rest ih =>
      intro acc hpass
      obtain ⟨model, data⟩ := hd
      unfold totalCurvesGo
      rw [hm]
      dsimp only [filterGet]
      by_cases hskip : fm ≠ [] ∧ model ∉ fm
      · rw [if_pos hskip]
        refine ih acc ?_
        obtain ⟨p, hp, hpass⟩ := hpass
        rcases List.mem_cons.mp hp with rfl | hp
        · dsimp only at hpass
          rcases hpass with h | h
          · exact absurd h hskip.1
          · exact absurd h hskip.2
        · exact ⟨p, hp, hpass⟩
      · rw [if_neg hskip, hmet]

theorem totalCurvesGo_evalsets_absent (cd : CurveData) (f : Filters)
    (fm fmet : List String) (hm : f.models = some fm)
    (hmet : f.metrics = some fmet) (hes : f.eval_sets = none) :
    ∀ acc, (∃ p ∈ cd, fm = [] ∨ p.1 ∈ fm) →
    totalCurvesGo f cd acc = .error (.keyError "eval_sets") := by
  induction cd with
  | nil => intro acc hpass; simp at hpass
  | cons hd rest ih =>
      intro acc hpass
      obtain ⟨model, data⟩ := hd
      unfold totalCurvesGo
      rw [hm]
      dsimp only [filterGet]
      by_cases hskip : fm ≠ [] ∧ model ∉ fm
      · rw [if_pos hskip]
        refine ih acc ?_
        obtain ⟨p, hp, hpass⟩ := hpass
        rcases List.mem_cons.mp hp with rfl | hp
        · dsimp only at hpass
          rcases hpass with h | h
          · exact absurd h hskip.1
          · exact absurd h hskip.2
        · exact ⟨p, hp, hpass⟩
      · rw [if_neg hskip, hmet, hes]

/-- C9 (amended): `before_task` accesses the three filter keys lazily inside
the per-model loop: a missing "models" key fails with `KeyError` exactly when
`curve_data` is nonempty; missing "metrics"/"eval_sets" keys fail with
`KeyError` exactly when at least one model passes the models filter.  Each
such failure happens before any grid is allocated.  (When no model reaches
the accesses, a missing key raises no `KeyError` at all — the call instead
dies with the division-by-zero error of C10.) -/
theorem C9_filters_key_requirements (s : GCState) (cd : CurveData)
    (st : Strategies) (f : Filters) :
    (cd ≠ [] → f.models = none →
        before_task s cd st f = .error (.keyError "models")) ∧
    (∀ fm, f.models = some fm → f.metrics = none →
        (∃ p ∈ cd, fm = [] ∨ p.1 ∈ fm) →
        before_task s cd st f = .error (.keyError "metrics")) ∧
    (∀ fm fmet, f.models = some fm → f.metrics = some fmet →
        f.eval_sets = none → (∃ p ∈ cd, fm = [] ∨ p.1 ∈ fm) →
        before_task s cd st f = .error (.keyError "eval_sets")) := by
  refine ⟨?_, ?_, ?_⟩
  · intro hne hm
    exact before_task_error s (totalCurvesGo_models_absent cd f 0 hne hm)
  · intro fm hm hmet hpass
    exact before_task_error s (totalCurvesGo_metrics_absent cd f fm hm hmet 0 hpass)
  · intro fm fmet hm hmet hes hpass
    exact before_task_error s
      (totalCurvesGo_evalsets_absent cd f fm fmet hm hmet hes 0 hpass)

/-- Counterexample for C9 as stated: a call with the "metrics" and
"eval_sets" keys absent on which `before_task` does NOT fail with a
key-lookup error — the only model is excluded by the models filter, so the
missing keys are never subscripted and the call fails with the
division-by-zero error instead. -/
theorem C9_counterexample :
    before_task (initState .patience (some "out")) exCurveData exStrategies
        ⟨some ["zzz"], none, none⟩ = .error .zeroDivision ∧
    ¬∃ k, before_task (initState .patience (some "out")) exCurveData
        exStrategies ⟨some ["zzz"], none, none⟩ = .error (.keyError k) := by
  refine ⟨rfl, ?_⟩
  rintro ⟨k, hk⟩
  rw [show before_task (initState .patience (some "out")) exCurveData
      exStrategies ⟨some ["zzz"], none, none⟩ = .error .zeroDivision from rfl] at hk
  simp at hk

/-- Witness for C9 (amended): each of the three keys, when absent while the
loop reaches its access, produces its `KeyError`. -/
theorem C9_witness :
    before_task (initState .patience (some "out")) exCurveData exStrategies
        ⟨none, some [], some []⟩ = .error (.keyError "models") ∧
    before_task (initState .patience (some "out")) exCurveData exStrategies
        ⟨some [], none, some []⟩ = .error (.keyError "metrics") ∧
    before_task (initState .patience (some "out")) exCurveData exStrategies
        ⟨some [], some [], none⟩ = .error (.keyError "eval_sets") := by
  refine ⟨?_, ?_, ?_⟩
  · exact (C9_filters_key_requirements (initState .patience (some "out"))
      exCurveData exStrategies ⟨none, some [], some []⟩).1 (by simp [exCurveData]) rfl
  · exact (C9_filters_key_requirements (initState .patience (some "out"))
      exCurveData exStrategies ⟨some [], none, some []⟩).2.1 [] rfl rfl
      ⟨("m1", ({"train", "val"}, {"mse", "mae"}, ())), by simp [exCurveData],
        Or.inl rfl⟩
  · exact (C9_filters_key_requirements (initState .patience (some "out"))
      exCurveData exStrategies ⟨some [], some [], none⟩).2.2 [] [] rfl rfl rfl
      ⟨("m1", ({"train", "val"}, {"mse", "mae"}, ())), by simp [exCurveData],
        Or.inl rfl⟩

/-! Lemmas about whole strategy-run cycles. -/

theorem plot_lines_postIterDict (k : AggKind) :
    plot_lines "iter" (postIterDict k) =
      .ok (lookupList (postIterDict k) "iter",
           (postIterDict k).filter (fun p => p.1 ≠ "iter")) := by
  cases k <;> rfl

theorem strategyCycle_ok (s : GCState) (cbs : List CB) (p : Panel)
    (rest : List Panel) (hax : s.axes = some (p :: rest)) :
    strategyCycle s cbs = .ok
      ({ s with
          results := some (postIterDict s.strategy_callback)
          axes := some rest
          legend := some (s.legend.getD ⟨p, postLabels s.strategy_callback⟩)
          plotted := s.plotted ++ [p] }, cbs) := by
  obtain ⟨sc, pa, fgen, fig, ax, lg, res, plt⟩ := s
  dsimp only at hax ⊢
  subst hax
  unfold strategyCycle before_strategy stepIter after_strategy
  dsimp only
  rcases cbs with _ | ⟨c, cs⟩
  · rw [if_neg (by simp)]
    simp only [Option.map_some']
    rw [show plot_lines "iter" ((sc.step [] ⟨0, 0, 0, 0⟩).1)
        = .ok (lookupList (postIterDict sc) "iter",
          (postIterDict sc).filter (fun q => q.1 ≠ "iter"))
      from plot_lines_postIterDict sc]
    rcases lg with _ | l <;> rfl
  · rw [if_pos (List.cons_ne_nil c cs)]
    simp only [Option.map_some']
    rw [show plot_lines "iter" ((sc.step [] ⟨0, 0, 0, 0⟩).1)
        = .ok (lookupList (postIterDict sc) "iter",
          (postIterDict sc).filter (fun q => q.1 ≠ "iter"))
      from plot_lines_postIterDict sc]
    simp only [List.cons_append]
    rcases lg with _ | l <;>
      simp only [← List.cons_append, List.dropLast_concat] <;> rfl

theorem strategyCycle_exhausted (s : GCState) (cbs : List CB)
    (hax : s.axes = some []) : strategyCycle s cbs = .error .exhausted := by
  obtain ⟨sc, pa, fgen, fig, ax, lg, res, plt⟩ := s
  dsimp only at hax
  subst hax
  unfold strategyCycle before_strategy stepIter after_strategy
  rfl

theorem runCycles_ok (k : Nat) : ∀ (s : GCState) (cbs : List CB)
    (ps : List Panel), s.axes = some ps → k ≤ ps.length →
    ∃ s2, runCycles k s cbs = .ok (s2, cbs) ∧ s2.axes = some (ps.drop k) ∧
      s2.plotted = s.plotted ++ ps.take k := by
  induction k with
  | zero =>
      intro s cbs ps hax _
      exact ⟨s, rfl, by simpa using hax, by simp⟩
  | succ k ih =>
      intro s cbs ps hax hk
      rcases ps with _ | ⟨p, rest⟩
      · simp at hk
      · have hc := strategyCycle_ok s cbs p rest hax
        unfold runCycles
        rw [hc]
        obtain ⟨s2, hrun, ha2, hp2⟩ := ih
          { s with
              results := some (postIterDict s.strategy_callback)
              axes := some rest
              legend := some (s.legend.getD ⟨p, postLabels s.strategy_callback⟩)
              plotted := s.plotted ++ [p] }
          cbs rest rfl (by simpa using hk)
        refine ⟨s2, hrun, by simpa using ha2, ?_⟩
        rw [hp2]
        simp

theorem runCycles_add (a b : Nat) : ∀ (s : GCState) (cbs : List CB),
    runCycles (a + b) s cbs =
      match runCycles a s cbs with
      | .error e => .error e
      | .ok r => runCycles b r.1 r.2 := by
  induction a with
  | zero =>
      intro s cbs
      rw [Nat.zero_add]
      simp only [runCycles]
  | succ a ih =>
      intro s cbs
      rw [Nat.add_right_comm a 1 b]
      simp only [runCycles]
      rcases hc : strategyCycle s cbs with e | r
      · rfl
      · exact ih r.1 r.2

theorem runCycles_past_end (s : GCState) (cbs : List CB) (ps : List Panel)
    (hax : s.axes = some ps) :
    runCycles (ps.length + 1) s cbs = .error .exhausted := by
  obtain ⟨s2, hrun, ha2, -⟩ := runCycles_ok ps.length s cbs ps hax le_rfl
  rw [runCycles_add ps.length 1 s cbs, hrun]
  have hempty : s2.axes = some [] := by
    rw [ha2, List.drop_length]
  show runCycles 1 s2 cbs = .error .exhausted
  unfold runCycles
  rw [strategyCycle_exhausted s2 cbs hempty]

/-- Inversion of a successful `before_task`: the layout computation succeeded
and the state got a fresh figure and the generator over its `rows * cols`
axes, while `legend` and `results` are untouched. -/
theorem before_task_ok_inv {s : GCState} {cd : CurveData} {st : Strategies}
    {f : Filters} {s1 : GCState} (h : before_task s cd st f = .ok s1) :
    ∃ g, beforeTaskCalc cd st f = .ok g ∧
      s1 = { s with
              figureGen := s.figureGen + 1
              figure := some (s.figureGen + 1)
              axes := some ((List.range (g.rows * g.cols)).map
                (fun i => (s.figureGen + 1, i))) } := by
  unfold before_task at h
  rcases hg : beforeTaskCalc cd st f with e | g
  · rw [hg] at h
    exact absurd h (by simp)
  · rw [hg] at h
    dsimp only at h
    simp only [Except.ok.injEq] at h
    exact ⟨g, rfl, h.symm⟩

/-- C1 (amended): the panel sequence created in `before_task` contains exactly
`rows * cols` distinct panels (which is at least `num_axes`, with equality only
when the grid is a perfect fit).  The first `rows * cols` `after_strategy`
calls each obtain a fresh panel, and calling `after_strategy` strictly more
times than `rows * cols` — not `num_axes` — fails with the exhaustion error
(`StopIteration`), never silently wrapping around. -/
theorem C1_panel_exhaustion (s0 s1 : GCState) (cd : CurveData) (st : Strategies)
    (f : Filters) (g : GridCalc) (cbs : List CB) (k : Nat)
    (hbt : before_task s0 cd st f = .ok s1)
    (hg : beforeTaskCalc cd st f = .ok g) :
    ∃ ps : List Panel, s1.axes = some ps ∧ ps.length = g.rows * g.cols ∧
      ps.Nodup ∧ g.numAxes ≤ g.rows * g.cols ∧
      (k ≤ g.rows * g.cols →
        ∃ s2, runCycles k s1 cbs = .ok (s2, cbs) ∧
          s2.axes = some (ps.drop k) ∧
          s2.plotted = s1.plotted ++ ps.take k) ∧
      runCycles (g.rows * g.cols + 1) s1 cbs = .error .exhausted := by
  obtain ⟨g2, hg2, hs1⟩ := before_task_ok_inv hbt
  rw [hg] at hg2
  injection hg2 with hgg
  subst hgg
  refine ⟨(List.range (g.rows * g.cols)).map (fun i => (s0.figureGen + 1, i)),
    by rw [hs1], by simp, ?_, ?_, ?_, ?_⟩
  · exact List.Nodup.map (fun a b hab => by simpa using hab) (List.nodup_range _)
  · obtain ⟨-, -, -, hcols, hrows, hnz⟩ := beforeTaskCalc_ok hg
    have hcpos : 0 < g.cols := by
      rw [hcols]; exact ceilSqrt_pos _ hnz
    rw [hrows]
    exact le_ceilDiv_mul _ _ hcpos
  · intro hk
    refine runCycles_ok k s1 cbs _ (by rw [hs1]) (by simpa using hk)
  · have hlen : g.rows * g.cols =
        ((List.range (g.rows * g.cols)).map (fun i => (s0.figureGen + 1, i))).length := by
      simp
    rw [hlen]
    exact runCycles_past_end s1 cbs _ (by rw [hs1])

/-- Counterexample to C1 as stated: on the worked example `num_axes = 8`, but
the grid holds `rows * cols = 9` panels, and 9 consecutive strategy runs —
strictly more than `num_axes` — all succeed instead of failing with an
exhaustion error. -/
theorem C1_counterexample :
    beforeTaskCalc exCurveData exStrategies exFilters = .ok ⟨4, 2, 8, 3, 3⟩ ∧
    before_task (initState .patience (some "out")) exCurveData exStrategies
        exFilters = .ok exTaskState ∧
    (∃ r, runCycles 9 exTaskState [] = .ok r) := by
  exact ⟨rfl, rfl, ⟨_, rfl⟩⟩

/-- Witness for C1 (amended): on the worked example the first 9 calls all
succeed and the 10th fails with the exhaustion error. -/
theorem C1_witness :
    (∃ s2, runCycles 9 exTaskState [] = .ok (s2, [])) ∧
    runCycles 10 exTaskState [] = .error .exhausted := by
  obtain ⟨ps, hax, hlen, hnd, hle, hrun, hex⟩ :=
    C1_panel_exhaustion (initState .patience (some "out")) exTaskState
      exCurveData exStrategies exFilters ⟨4, 2, 8, 3, 3⟩ [] 9 rfl rfl
  obtain ⟨s2, hr, -, -⟩ := hrun (by decide)
  exact ⟨⟨s2, hr⟩, hex⟩

/-- C3 (amended): at a task boundary `before_task` reassigns only `figure` and
`axes`; `legend` and `results` persist unchanged across tasks (`results` is
reassigned at each `before_strategy` instead).  The figure-level legend is
captured once, from the first panel completed since the callback was
constructed (first-wins for the whole callback lifetime, not per task), and is
left unchanged by every later `after_strategy`; hence within the first task it
equals that task's first panel's legend, but in later tasks it remains the
stale legend of the first task. -/
theorem C3_legend_first_wins (s : GCState) (cd : CurveData) (st : Strategies)
    (f : Filters) (m e v : String) (cbs : List CB) :
    (∀ s1, before_task s cd st f = .ok s1 →
        s1.legend = s.legend ∧ s1.results = s.results ∧
        s1.figure = some (s.figureGen + 1) ∧
        ∃ g, beforeTaskCalc cd st f = .ok g ∧
          s1.axes = some ((List.range (g.rows * g.cols)).map
            (fun i => (s.figureGen + 1, i)))) ∧
    (∀ s2 cbs2 l, s.legend = some l →
        after_strategy s m e v cbs = .ok (s2, cbs2) → s2.legend = some l) ∧
    (∀ s2 cbs2 p rest, s.legend = none → s.axes = some (p :: rest) →
        after_strategy s m e v cbs = .ok (s2, cbs2) →
        ∃ lbls, s2.legend = some ⟨p, lbls⟩ ∧ s2.plotted = s.plotted ++ [p]) := by
  refine ⟨?_, ?_, ?_⟩
  · intro s1 h
    obtain ⟨g, hg, hs1⟩ := before_task_ok_inv h
    rw [hs1]
    exact ⟨rfl, rfl, rfl, g, hg, rfl⟩
  · intro s2 cbs2 l hleg h
    obtain ⟨p, rest, res, xs, -, -, -, -, -, hs2⟩ := after_strategy_ok h
    rw [hs2]
    dsimp only
    rw [hleg]
    rfl
  · intro s2 cbs2 p rest hleg hax h
    obtain ⟨p2, rest2, res, xs, hax2, -, -, -, -, hs2⟩ := after_strategy_ok h
    rw [hax] at hax2
    injection hax2 with hax2
    injection hax2 with hp2 _
    subst hp2
    rw [hs2]
    dsimp only
    rw [hleg]
    exact ⟨xs.2.map Prod.fst, rfl, rfl⟩

/-- Counterexample to C3 as stated: a two-task trace in which `before_task`
of the second task leaves `legend` (and `results`) unchanged, so during the
second task the figure-level legend still holds the handles captured from the
FIRST task's first panel `(1, 0)` — not from the second task's first completed
panel `(2, 0)`. -/
theorem C3_counterexample :
    ∃ r1 s3 r2,
      before_task (initState .patience (some "out")) exCurveData exStrategies
          exFilters = .ok exTaskState ∧
      exTaskState.legend = none ∧
      runCycles 1 exTaskState [] = .ok r1 ∧
      r1.1.legend = some ⟨(1, 0), ["iter_wo_improvement", "patience"]⟩ ∧
      before_task r1.1 exCurveData exStrategies exFilters = .ok s3 ∧
      s3.legend = r1.1.legend ∧
      s3.results = r1.1.results ∧
      runCycles 1 s3 r1.2 = .ok r2 ∧
      r2.1.plotted = [(1, 0), (2, 0)] ∧
      r2.1.legend = some ⟨(1, 0), ["iter_wo_improvement", "patience"]⟩ ∧
      Option.map Legend.panel r2.1.legend ≠ some (2, 0) := by
  refine ⟨_, _, _, rfl, rfl, rfl, rfl, rfl, rfl, rfl, rfl, rfl, rfl, by decide⟩

/-- Witness for C3 (amended): the first-capture case of `after_strategy` on a
concrete mid-run state with no legend yet. -/
theorem C3_witness :
    ∃ lbls, c3WitOut.legend = some ⟨(1, 0), lbls⟩ ∧
      c3WitOut.plotted = [(1, 0)] := by
  have h := (C3_legend_first_wins exMidState exCurveData exStrategies exFilters
      "m" "e" "v" [CB.other 3]).2.2 c3WitOut [] (1, 0) [] rfl rfl rfl
  simpa using h

end EarlyStopping
